import Mathlib

/-!
Verification development for the HydraTrack progression engine (src/app.js).

The data model and operations below are a shallow embedding of the state
machine of the `HydraTrack` class: the game state record, the rules engine
(`addWater`, `addXP`, `checkLevelUp`, `checkAchievements`,
`handleGoalAchieved`), the day-rollover policy (`checkNewDay`,
`getIntakeForDate`), the settings operation (`saveSettings`), the cloud
reconciliation paths (`checkExistingSession`, `handleSignIn`) and the
remote-store operations (`loadFromCloud`, `saveToCloud`,
`deleteFromCloud`).

Modelling conventions:
- JavaScript numbers holding non-negative integers become `Nat`;
  `Math.floor(amount / 25)` is `Nat` division.
- A calendar day (`toDateString` equivalence class) becomes a `Nat`;
  an instant carries its day, its hour (`getHours`) and an ordinal
  `stamp` standing for `toISOString` (used as `unlockedAt`).
  A history entry's stored `date` string always equals the calendar day
  of its `timestamp` (both are produced from the same `new Date()`), so
  one `day` field represents both.
- The `achievements` object is an association list in insertion order.
- UI, audio and persistence calls (`updateDisplay`, `showToast`,
  `saveState`, ...) do not change the modelled state and are omitted.
- The JS methods `addXP`, `checkLevelUp` and `checkAchievements` are
  mutually recursive; the recursion re-enters `checkAchievements` only
  when the level strictly increases, and levels are drawn from a fixed
  10-entry table, so the recursion depth is bounded by 10.  The embedding
  threads an explicit fuel parameter and uses `FUEL = 12` at entry
  points; fuel exhaustion (which provably never occurs from any state,
  see the `10 ≤ f + s.level` lemmas) would only skip the nested
  achievements pass.
-/

/-- One `history` entry: `{amount, timestamp, date}` of `addWater`. -/
structure LogEntry where
  amount : Nat
  day : Nat
  hour : Nat
  deriving DecidableEq

/-- The `settings` sub-record of the game state. -/
structure AppSettings where
  soundEnabled : Bool
  notificationsEnabled : Bool
  reminderInterval : Nat
  startTime : String
  endTime : String
  deriving DecidableEq

/-- The `stats` sub-record of the game state. -/
structure AppStats where
  totalDays : Nat
  totalWater : Nat
  perfectDays : Nat
  bestStreak : Nat
  glassesCount : Nat
  deriving DecidableEq

/-- The `this.state` record of the `HydraTrack` class. -/
structure GameState where
  currentIntake : Nat
  dailyGoal : Nat
  xp : Nat
  totalXp : Nat
  level : Nat
  streak : Nat
  lastDrinkDate : Option Nat
  history : List LogEntry
  achievements : List (String × Nat)
  settings : AppSettings
  stats : AppStats
  deriving DecidableEq

/-- A point in time: calendar day, hour of day, and an ordinal stamp
standing for the ISO timestamp string. -/
structure Instant where
  day : Nat
  hour : Nat
  stamp : Nat
  deriving DecidableEq

/-- One row of the level table (`this.levels`); titles are presentation
only and are omitted. -/
structure LevelDef where
  level : Nat
  xpRequired : Nat
  deriving DecidableEq

/-- The fixed 10-entry level table of the constructor. -/
def levels : List LevelDef :=
  [⟨1, 0⟩, ⟨2, 100⟩, ⟨3, 250⟩, ⟨4, 500⟩, ⟨5, 800⟩,
   ⟨6, 1200⟩, ⟨7, 1700⟩, ⟨8, 2300⟩, ⟨9, 3000⟩, ⟨10, 4000⟩]

/-- The descending scan of `checkLevelUp`: the first table row (from the
highest) whose `xpRequired` is at most `totalXp`; `newLevel` starts at 1. -/
def scanLevels : List LevelDef → Nat → Nat
  | [], _ => 1
  | l :: ls, txp => if l.xpRequired ≤ txp then l.level else scanLevels ls txp

/-- The level `checkLevelUp` computes for a given `totalXp`. -/
def computeLevel (txp : Nat) : Nat := scanLevels levels.reverse txp

/-- One row of `this.achievementsDef`; `name`, `desc` and `icon` are
presentation only and are omitted. -/
structure AchievementDef where
  id : String
  xp : Nat
  condition : GameState → Bool

/-- The fixed achievement catalog of the constructor, in catalog order. -/
def achievementsDef : List AchievementDef :=
  [⟨"first_drop", 25, fun s => decide (s.stats.glassesCount ≥ 1)⟩,
   ⟨"getting_started", 50, fun s => decide (s.stats.perfectDays ≥ 1)⟩,
   ⟨"hydration_habit", 75, fun s => decide (s.streak ≥ 3)⟩,
   ⟨"week_warrior", 150, fun s => decide (s.streak ≥ 7)⟩,
   ⟨"hydration_hero", 300, fun s => decide (s.streak ≥ 14)⟩,
   ⟨"monthly_master", 500, fun s => decide (s.streak ≥ 30)⟩,
   ⟨"liter_club", 50, fun s => s.history.any (fun h => decide (h.amount ≥ 1000))⟩,
   ⟨"early_bird", 40, fun s => s.history.any (fun h => decide (h.hour < 8))⟩,
   ⟨"night_owl", 40, fun s => s.history.any (fun h => decide (h.hour ≥ 22))⟩,
   ⟨"ocean_drinker", 100, fun s => decide (s.stats.totalWater ≥ 10000)⟩,
   ⟨"river_runner", 200, fun s => decide (s.stats.totalWater ≥ 50000)⟩,
   ⟨"waterfall_wonder", 400, fun s => decide (s.stats.totalWater ≥ 100000)⟩,
   ⟨"level_5", 100, fun s => decide (s.level ≥ 5)⟩,
   ⟨"level_10", 250, fun s => decide (s.level ≥ 10)⟩,
   ⟨"perfectionist", 200, fun s => decide (s.stats.perfectDays ≥ 10)⟩]

/-- Truthiness of `this.state.achievements[id]`. -/
def hasAchievement (s : GameState) (id : String) : Bool :=
  s.achievements.any (fun p => p.1 == id)

/-- `checkLevelUp`, parameterised by the nested achievements pass taken
on a level-up (`pass` is `checkAchievements` in the source). -/
def checkLevelUpWith (pass : GameState → GameState) (s : GameState) : GameState :=
  let newLevel := computeLevel s.totalXp
  if s.level < newLevel then pass { s with level := newLevel } else s

/-- `addXP`, parameterised by the nested achievements pass. -/
def addXPWith (pass : GameState → GameState) (amount : Nat) (s : GameState) : GameState :=
  checkLevelUpWith pass { s with xp := s.xp + amount, totalXp := s.totalXp + amount }

/-- The `forEach` loop of `checkAchievements` that inserts newly
qualified achievements; it returns the updated state and the
`newAchievements` list, in catalog order. -/
def unlockLoop (now : Nat) : GameState → List AchievementDef → GameState × List AchievementDef
  | s, [] => (s, [])
  | s, d :: ds =>
    if hasAchievement s d.id then unlockLoop now s ds
    else if d.condition s then
      let r := unlockLoop now { s with achievements := s.achievements ++ [(d.id, now)] } ds
      (r.1, d :: r.2)
    else unlockLoop now s ds

/-- The XP-grant loop of `checkAchievements`
(`newAchievements.forEach(a => this.addXP(a.xp))`). -/
def runGrants (pass : GameState → GameState) : GameState → List AchievementDef → GameState
  | s, [] => s
  | s, d :: ds => runGrants pass (addXPWith pass d.xp s) ds

/-- One `checkAchievements` call with a given nested pass: unlock loop,
then XP grants; also returns the ids newly unlocked by this call's own
loop. -/
def achievePass (pass : GameState → GameState) (now : Nat) (s : GameState) :
    GameState × List String :=
  let r := unlockLoop now s achievementsDef
  (runGrants pass r.1 r.2, r.2.map (fun d => d.id))

/-- Fuelled `checkAchievements`: the nested pass entered from
`checkLevelUp` runs with one unit of fuel less. -/
def checkAchievementsGo : Nat → Nat → GameState → GameState × List String
  | 0, now, s => achievePass (fun t => t) now s
  | f + 1, now, s => achievePass (fun t => (checkAchievementsGo f now t).1) now s

/-- Fuel used at entry points; the recursion depth is bounded by 10. -/
def FUEL : Nat := 12

/-- `checkAchievements` as called by the application. -/
def checkAchievements (now : Nat) (s : GameState) : GameState × List String :=
  checkAchievementsGo FUEL now s

/-- `addXP` as called by the application. -/
def addXP (now amount : Nat) (s : GameState) : GameState :=
  addXPWith (fun t => (checkAchievementsGo FUEL now t).1) amount s

/-- `handleGoalAchieved`: streak, best streak, perfect/total days, and
the flat 100 bonus XP (celebration UI omitted). -/
def handleGoalAchieved (now : Nat) (s : GameState) : GameState :=
  let s1 := { s with streak := s.streak + 1 }
  let s2 :=
    if s1.stats.bestStreak < s1.streak then
      { s1 with stats := { s1.stats with bestStreak := s1.streak } }
    else s1
  let s3 := { s2 with stats :=
    { s2.stats with perfectDays := s2.stats.perfectDays + 1,
                    totalDays := s2.stats.totalDays + 1 } }
  addXP now 100 s3

/-- `addWater(amount)` at instant `t`. -/
def addWater (s : GameState) (amount : Nat) (t : Instant) : GameState :=
  let previousIntake := s.currentIntake
  let s1 := { s with
    currentIntake := s.currentIntake + amount,
    lastDrinkDate := some t.day,
    history := s.history ++ [{ amount := amount, day := t.day, hour := t.hour }],
    stats := { s.stats with
      glassesCount := s.stats.glassesCount + 1,
      totalWater := s.stats.totalWater + amount } }
  let s2 := addXP t.stamp (amount / 25) s1
  let s3 :=
    if previousIntake < s2.dailyGoal ∧ s2.dailyGoal ≤ s2.currentIntake then
      handleGoalAchieved t.stamp s2
    else s2
  (checkAchievements t.stamp s3).1

/-- `getIntakeForDate`: sum of the history entries logged on `day`. -/
def getIntakeForDate (s : GameState) (day : Nat) : Nat :=
  (s.history.filter (fun h => h.day == day)).foldl (fun sum h => sum + h.amount) 0

/-- `checkNewDay` with today's calendar day supplied by the clock. -/
def checkNewDay (s : GameState) (today : Nat) : GameState :=
  match s.lastDrinkDate with
  | none => s
  | some lastDate =>
    if lastDate = today then s
    else
      let s1 :=
        if lastDate = today - 1 then
          if getIntakeForDate s (today - 1) < s.dailyGoal then { s with streak := 0 } else s
        else { s with streak := 0 }
      { s1 with currentIntake := 0 }

/-- `saveSettings` with the parsed goal input and the two toggle values. -/
def saveSettings (s : GameState) (newGoal : Int) (sound notif : Bool) : GameState :=
  let s1 := if 500 ≤ newGoal ∧ newGoal ≤ 5000 then { s with dailyGoal := newGoal.toNat } else s
  { s1 with settings :=
    { s1.settings with soundEnabled := sound, notificationsEnabled := notif } }

/-- The constructor's initial `this.state`. -/
def initialState : GameState where
  currentIntake := 0
  dailyGoal := 2000
  xp := 0
  totalXp := 0
  level := 1
  streak := 0
  lastDrinkDate := none
  history := []
  achievements := []
  settings := ⟨true, false, 60, "08:00", "22:00"⟩
  stats := ⟨0, 0, 0, 0, 0⟩

/-- The progress-dominance test used by both merge paths. -/
def cloudDominates (cloud loc : GameState) : Bool :=
  decide (cloud.totalXp > loc.totalXp) || decide (cloud.stats.totalWater > loc.stats.totalWater)

/-- Outcome of a merge path: the resulting in-memory state and the value
written (if any) to the local store and to the remote store. -/
structure SessionResult where
  state : GameState
  localWrite : Option GameState
  remoteWrite : Option GameState
  deriving DecidableEq

/-- The state-relevant part of `checkExistingSession` (resumed session):
adopt the cloud copy when it dominates and save it locally; otherwise
keep local and write nothing.  The spread `{...this.state, ...cloudState}`
with a full remote document is full replacement. -/
def checkExistingSession (loc : GameState) (cloud : Option GameState) : SessionResult :=
  match cloud with
  | none => ⟨loc, none, none⟩
  | some c =>
    if cloudDominates c loc then ⟨c, some c, none⟩ else ⟨loc, none, none⟩

/-- The state-relevant part of `handleSignIn` after authentication:
adopt the cloud copy when it dominates, then upload the current state to
the cloud and save it locally. -/
def handleSignIn (loc : GameState) (cloud : Option GameState) : SessionResult :=
  let merged :=
    match cloud with
    | none => loc
    | some c => if cloudDominates c loc then c else loc
  ⟨merged, some merged, some merged⟩

/-- Outcome of one `fetch` call: a response with its status code and (for
GET) the parsed body, `none` when the body is not a valid state document;
or a transport failure (rejected promise). -/
inductive FetchResult where
  | response (status : Nat) (body : Option GameState)
  | failure
  deriving DecidableEq

/-- `Response.ok`: status in 200..299. -/
def statusOk (status : Nat) : Bool := decide (200 ≤ status) && decide (status < 300)

/-- `loadFromCloud`: `null` without a token; `null` on 404; the parsed
body on a 2xx response (`null` when parsing fails, caught); every other
status throws and the catch block returns `null`. -/
def loadFromCloud (token : Option String) (res : FetchResult) : Option GameState :=
  match token with
  | none => none
  | some _ =>
    match res with
    | .failure => none
    | .response status body =>
      if status == 404 then none
      else if statusOk status then body
      else none

/-- `saveToCloud`: `false` without a token or on a transport failure,
otherwise `res.ok`. -/
def saveToCloud (token : Option String) (res : FetchResult) : Bool :=
  match token with
  | none => false
  | some _ =>
    match res with
    | .failure => false
    | .response status _ => statusOk status

/-- `deleteFromCloud`: `false` without a token or on a transport failure,
otherwise `res.ok`. -/
def deleteFromCloud (token : Option String) (res : FetchResult) : Bool :=
  match token with
  | none => false
  | some _ =>
    match res with
    | .failure => false
    | .response status _ => statusOk status

/-- One state-mutating operation of the engine. -/
inductive Step : GameState → GameState → Prop where
  | water (s : GameState) (amount : Nat) (t : Instant) : Step s (addWater s amount t)
  | newDay (s : GameState) (today : Nat) : Step s (checkNewDay s today)
  | settings (s : GameState) (g : Int) (sound notif : Bool) :
      Step s (saveSettings s g sound notif)
  | achieve (s : GameState) (now : Nat) : Step s (checkAchievements now s).1

/-- States reachable from the constructor's initial state by engine
operations. -/
inductive Reachable : GameState → Prop where
  | init : Reachable initialState
  | step {s s' : GameState} : Reachable s → Step s s' → Reachable s'

/-- Fields of the state that none of `addXP`/`checkLevelUp`/
`checkAchievements` ever changes, together with the monotone facts
(level and total XP never decrease, unlocked achievements stay
unlocked) that do hold for the fields they do change. -/
structure RulesFrame (s t : GameState) : Prop where
  currentIntake : t.currentIntake = s.currentIntake
  dailyGoal : t.dailyGoal = s.dailyGoal
  streak : t.streak = s.streak
  lastDrinkDate : t.lastDrinkDate = s.lastDrinkDate
  history : t.history = s.history
  settings : t.settings = s.settings
  stats : t.stats = s.stats
  level_le : s.level ≤ t.level
  totalXp_le : s.totalXp ≤ t.totalXp
  ach_mono : ∀ id, hasAchievement s id = true → hasAchievement t id = true

/-- The level field is exactly what the table scan derives from the
total XP. -/
def levelInv (s : GameState) : Prop := s.level = computeLevel s.totalXp

/-- Every achievement that is still locked has a false condition: the
post-state of a completed achievement evaluation pass. -/
def lockedOff (s : GameState) : Prop :=
  ∀ d ∈ achievementsDef, hasAchievement s d.id = false → d.condition s = false

theorem computeLevel_eq (txp : Nat) :
    computeLevel txp =
      if 4000 ≤ txp then 10 else if 3000 ≤ txp then 9 else if 2300 ≤ txp then 8
      else if 1700 ≤ txp then 7 else if 1200 ≤ txp then 6 else if 800 ≤ txp then 5
      else if 500 ≤ txp then 4 else if 250 ≤ txp then 3 else if 100 ≤ txp then 2
      else 1 := by
  have h : levels.reverse =
      [⟨10, 4000⟩, ⟨9, 3000⟩, ⟨8, 2300⟩, ⟨7, 1700⟩, ⟨6, 1200⟩,
       ⟨5, 800⟩, ⟨4, 500⟩, ⟨3, 250⟩, ⟨2, 100⟩, ⟨1, 0⟩] := by rfl
  show scanLevels levels.reverse txp = _
  rw [h]
  simp only [scanLevels]
  simp [Nat.zero_le]

theorem computeLevel_le_ten (txp : Nat) : computeLevel txp ≤ 10 := by
  rw [computeLevel_eq]; split_ifs <;> omega

theorem computeLevel_mem (txp : Nat) :
    ∃ e ∈ levels, e.level = computeLevel txp ∧ e.xpRequired ≤ txp := by
  rw [computeLevel_eq]
  split_ifs with h1 h2 h3 h4 h5 h6 h7 h8 h9
  · exact ⟨⟨10, 4000⟩, by simp [levels], rfl, h1⟩
  · exact ⟨⟨9, 3000⟩, by simp [levels], rfl, h2⟩
  · exact ⟨⟨8, 2300⟩, by simp [levels], rfl, h3⟩
  · exact ⟨⟨7, 1700⟩, by simp [levels], rfl, h4⟩
  · exact ⟨⟨6, 1200⟩, by simp [levels], rfl, h5⟩
  · exact ⟨⟨5, 800⟩, by simp [levels], rfl, h6⟩
  · exact ⟨⟨4, 500⟩, by simp [levels], rfl, h7⟩
  · exact ⟨⟨3, 250⟩, by simp [levels], rfl, h8⟩
  · exact ⟨⟨2, 100⟩, by simp [levels], rfl, h9⟩
  · exact ⟨⟨1, 0⟩, by simp [levels], rfl, Nat.zero_le _⟩

set_option maxHeartbeats 1200000 in
theorem computeLevel_largest (txp : Nat) :
    ∀ e ∈ levels, e.xpRequired ≤ txp → e.level ≤ computeLevel txp := by
  intro e he h
  rw [computeLevel_eq]
  fin_cases he <;> simp_all <;> split_ifs <;> omega

theorem computeLevel_mono {a b : Nat} (h : a ≤ b) : computeLevel a ≤ computeLevel b := by
  obtain ⟨e, he, hlv, hxp⟩ := computeLevel_mem a
  rw [← hlv]
  exact computeLevel_largest b e he (hxp.trans h)

theorem rulesFrame_refl (s : GameState) : RulesFrame s s :=
  ⟨rfl, rfl, rfl, rfl, rfl, rfl, rfl, le_refl _, le_refl _, fun _ h => h⟩

theorem rulesFrame_trans {a b c : GameState} (h1 : RulesFrame a b) (h2 : RulesFrame b c) :
    RulesFrame a c :=
  ⟨h2.currentIntake.trans h1.currentIntake, h2.dailyGoal.trans h1.dailyGoal,
   h2.streak.trans h1.streak, h2.lastDrinkDate.trans h1.lastDrinkDate,
   h2.history.trans h1.history, h2.settings.trans h1.settings,
   h2.stats.trans h1.stats, h1.level_le.trans h2.level_le,
   h1.totalXp_le.trans h2.totalXp_le,
   fun id h => h2.ach_mono id (h1.ach_mono id h)⟩

theorem rulesFrame_checkLevelUpWith {pass : GameState → GameState}
    (hp : ∀ t, RulesFrame t (pass t)) (s : GameState) :
    RulesFrame s (checkLevelUpWith pass s) := by
  simp only [checkLevelUpWith]
  split
  next h =>
    exact rulesFrame_trans (b := { s with level := computeLevel s.totalXp })
      ⟨rfl, rfl, rfl, rfl, rfl, rfl, rfl, le_of_lt h, le_refl _, fun _ h => h⟩ (hp _)
  next => exact rulesFrame_refl s

theorem rulesFrame_addXPWith {pass : GameState → GameState}
    (hp : ∀ t, RulesFrame t (pass t)) (a : Nat) (s : GameState) :
    RulesFrame s (addXPWith pass a s) := by
  unfold addXPWith
  exact rulesFrame_trans (b := { s with xp := s.xp + a, totalXp := s.totalXp + a })
    ⟨rfl, rfl, rfl, rfl, rfl, rfl, rfl, le_refl _, Nat.le_add_right _ _, fun _ h => h⟩
    (rulesFrame_checkLevelUpWith hp _)

theorem unlockLoop_shape (now : Nat) (ds : List AchievementDef) (s : GameState) :
    ∃ l, (unlockLoop now s ds).1 = { s with achievements := s.achievements ++ l } := by
  induction ds generalizing s with
  | nil => exact ⟨[], by simp [unlockLoop]⟩
  | cons d ds ih =>
    simp only [unlockLoop]
    split
    · exact ih s
    · split
      · obtain ⟨l, hl⟩ := ih { s with achievements := s.achievements ++ [(d.id, now)] }
        exact ⟨(d.id, now) :: l, by simp [hl]⟩
      · exact ih s

theorem rulesFrame_unlockLoop (now : Nat) (ds : List AchievementDef) (s : GameState) :
    RulesFrame s (unlockLoop now s ds).1 := by
  obtain ⟨l, hl⟩ := unlockLoop_shape now ds s
  rw [hl]
  refine ⟨rfl, rfl, rfl, rfl, rfl, rfl, rfl, le_refl _, le_refl _, fun id h => ?_⟩
  simp only [hasAchievement, List.any_append, Bool.or_eq_true]
  exact Or.inl h

theorem rulesFrame_runGrants {pass : GameState → GameState}
    (hp : ∀ t, RulesFrame t (pass t)) (ds : List AchievementDef) :
    ∀ s, RulesFrame s (runGrants pass s ds) := by
  induction ds with
  | nil => intro s; simpa [runGrants] using rulesFrame_refl s
  | cons d ds ih =>
    intro s
    simp only [runGrants]
    exact rulesFrame_trans (rulesFrame_addXPWith hp d.xp s) (ih _)

theorem rulesFrame_achievePass {pass : GameState → GameState}
    (hp : ∀ t, RulesFrame t (pass t)) (now : Nat) (s : GameState) :
    RulesFrame s (achievePass pass now s).1 := by
  unfold achievePass
  exact rulesFrame_trans (rulesFrame_unlockLoop now achievementsDef s)
    (rulesFrame_runGrants hp _ _)

theorem rulesFrame_go : ∀ (f now : Nat) (s : GameState),
    RulesFrame s (checkAchievementsGo f now s).1 := by
  intro f
  induction f with
  | zero =>
    intro now s
    exact rulesFrame_achievePass (fun t => rulesFrame_refl t) now s
  | succ f ih =>
    intro now s
    exact rulesFrame_achievePass (fun t => ih now t) now s

theorem rulesFrame_checkAchievements (now : Nat) (s : GameState) :
    RulesFrame s (checkAchievements now s).1 :=
  rulesFrame_go FUEL now s

theorem rulesFrame_addXP (now a : Nat) (s : GameState) :
    RulesFrame s (addXP now a s) :=
  rulesFrame_addXPWith (fun t => rulesFrame_go FUEL now t) a s

theorem addXPWith_totalXp_le {pass : GameState → GameState}
    (hp : ∀ t, RulesFrame t (pass t)) (a : Nat) (s : GameState) :
    s.totalXp + a ≤ (addXPWith pass a s).totalXp := by
  unfold addXPWith
  exact (rulesFrame_checkLevelUpWith hp
    { s with xp := s.xp + a, totalXp := s.totalXp + a }).totalXp_le

theorem addXP_totalXp_le (now a : Nat) (s : GameState) :
    s.totalXp + a ≤ (addXP now a s).totalXp :=
  addXPWith_totalXp_le (fun t => rulesFrame_go FUEL now t) a s

theorem levelInv_checkLevelUpWith {pass : GameState → GameState}
    (hp : ∀ t, levelInv t → levelInv (pass t)) {s : GameState}
    (h : s.level ≤ computeLevel s.totalXp) : levelInv (checkLevelUpWith pass s) := by
  simp only [checkLevelUpWith]
  split
  next hlt => exact hp _ rfl
  next hge => exact Nat.le_antisymm h (Nat.not_lt.mp hge)

theorem levelInv_addXPWith {pass : GameState → GameState}
    (hp : ∀ t, levelInv t → levelInv (pass t)) (a : Nat) {s : GameState}
    (h : levelInv s) : levelInv (addXPWith pass a s) := by
  unfold addXPWith
  apply levelInv_checkLevelUpWith hp
  show s.level ≤ computeLevel (s.totalXp + a)
  rw [h]
  exact computeLevel_mono (Nat.le_add_right _ _)

theorem levelInv_unlockLoop (now : Nat) (ds : List AchievementDef) {s : GameState}
    (h : levelInv s) : levelInv (unlockLoop now s ds).1 := by
  obtain ⟨l, hl⟩ := unlockLoop_shape now ds s
  rw [hl]
  exact h

theorem levelInv_runGrants {pass : GameState → GameState}
    (hp : ∀ t, levelInv t → levelInv (pass t)) (ds : List AchievementDef) :
    ∀ {s : GameState}, levelInv s → levelInv (runGrants pass s ds) := by
  induction ds with
  | nil => intro s h; simpa [runGrants] using h
  | cons d ds ih =>
    intro s h
    simp only [runGrants]
    exact ih (levelInv_addXPWith hp d.xp h)

theorem levelInv_achievePass {pass : GameState → GameState}
    (hp : ∀ t, levelInv t → levelInv (pass t)) (now : Nat) {s : GameState}
    (h : levelInv s) : levelInv (achievePass pass now s).1 := by
  unfold achievePass
  exact levelInv_runGrants hp _ (levelInv_unlockLoop now achievementsDef h)

theorem levelInv_go : ∀ (f now : Nat) {s : GameState},
    levelInv s → levelInv (checkAchievementsGo f now s).1 := by
  intro f
  induction f with
  | zero => intro now s h; exact levelInv_achievePass (fun t ht => ht) now h
  | succ f ih => intro now s h; exact levelInv_achievePass (fun t ht => ih now ht) now h

theorem levelInv_addXP (now a : Nat) {s : GameState} (h : levelInv s) :
    levelInv (addXP now a s) :=
  levelInv_addXPWith (fun _ ht => levelInv_go FUEL now ht) a h

theorem levelInv_checkAchievements (now : Nat) {s : GameState} (h : levelInv s) :
    levelInv (checkAchievements now s).1 :=
  levelInv_go FUEL now h

theorem levelInv_handleGoalAchieved (now : Nat) {s : GameState} (h : levelInv s) :
    levelInv (handleGoalAchieved now s) := by
  simp only [handleGoalAchieved]
  split
  · exact levelInv_addXP now 100 h
  · exact levelInv_addXP now 100 h

theorem levelInv_addWater (s : GameState) (amount : Nat) (t : Instant)
    (h : levelInv s) : levelInv (addWater s amount t) := by
  simp only [addWater]
  apply levelInv_checkAchievements
  split
  · exact levelInv_handleGoalAchieved _ (levelInv_addXP _ _ h)
  · exact levelInv_addXP _ _ h

theorem levelInv_checkNewDay (s : GameState) (today : Nat) (h : levelInv s) :
    levelInv (checkNewDay s today) := by
  simp only [checkNewDay]
  split
  · exact h
  · split
    · exact h
    · split
      · split
        · exact h
        · exact h
      · exact h

theorem levelInv_saveSettings (s : GameState) (g : Int) (sound notif : Bool)
    (h : levelInv s) : levelInv (saveSettings s g sound notif) := by
  simp only [saveSettings]
  split
  · exact h
  · exact h

theorem addXP_streak (now a : Nat) (s : GameState) : (addXP now a s).streak = s.streak :=
  (rulesFrame_addXP now a s).streak

theorem addXP_stats (now a : Nat) (s : GameState) : (addXP now a s).stats = s.stats :=
  (rulesFrame_addXP now a s).stats

theorem addXP_currentIntake (now a : Nat) (s : GameState) :
    (addXP now a s).currentIntake = s.currentIntake :=
  (rulesFrame_addXP now a s).currentIntake

theorem addXP_dailyGoal (now a : Nat) (s : GameState) :
    (addXP now a s).dailyGoal = s.dailyGoal :=
  (rulesFrame_addXP now a s).dailyGoal

theorem checkAchievements_streak (now : Nat) (s : GameState) :
    (checkAchievements now s).1.streak = s.streak :=
  (rulesFrame_checkAchievements now s).streak

theorem checkAchievements_stats (now : Nat) (s : GameState) :
    (checkAchievements now s).1.stats = s.stats :=
  (rulesFrame_checkAchievements now s).stats

theorem handleGoalAchieved_streak (now : Nat) (s : GameState) :
    (handleGoalAchieved now s).streak = s.streak + 1 := by
  simp only [handleGoalAchieved]
  split <;> simp [addXP_streak]

theorem handleGoalAchieved_bestStreak (now : Nat) (s : GameState) :
    (handleGoalAchieved now s).stats.bestStreak = max s.stats.bestStreak (s.streak + 1) := by
  simp only [handleGoalAchieved]
  split
  next h => simp only [addXP_stats]; omega
  next h => simp only [addXP_stats]; omega

theorem handleGoalAchieved_perfectDays (now : Nat) (s : GameState) :
    (handleGoalAchieved now s).stats.perfectDays = s.stats.perfectDays + 1 := by
  simp only [handleGoalAchieved]
  split <;> simp [addXP_stats]

theorem handleGoalAchieved_totalDays (now : Nat) (s : GameState) :
    (handleGoalAchieved now s).stats.totalDays = s.stats.totalDays + 1 := by
  simp only [handleGoalAchieved]
  split <;> simp [addXP_stats]

theorem addXP_totalXp_le_of_eq (now a : Nat) (s : GameState) {m : Nat}
    (h : m = s.totalXp) : m + a ≤ (addXP now a s).totalXp := by
  rw [h]; exact addXP_totalXp_le now a s

theorem addXP_level_le_of_eq (now a : Nat) (s : GameState) {m : Nat}
    (h : m = s.level) : m ≤ (addXP now a s).level := by
  rw [h]; exact (rulesFrame_addXP now a s).level_le

theorem handleGoalAchieved_totalXp_le (now : Nat) (s : GameState) :
    s.totalXp + 100 ≤ (handleGoalAchieved now s).totalXp := by
  simp only [handleGoalAchieved]
  split <;> exact addXP_totalXp_le_of_eq now 100 _ rfl

theorem handleGoalAchieved_level_le (now : Nat) (s : GameState) :
    s.level ≤ (handleGoalAchieved now s).level := by
  simp only [handleGoalAchieved]
  split <;> exact addXP_level_le_of_eq now 100 _ rfl

theorem log_goal_xp_chain (now a : Nat) (u : GameState) {m : Nat} (h : m = u.totalXp) :
    m + a + 100 ≤ (checkAchievements now (handleGoalAchieved now (addXP now a u))).1.totalXp := by
  calc m + a + 100 ≤ (addXP now a u).totalXp + 100 :=
        Nat.add_le_add_right (addXP_totalXp_le_of_eq now a u h) 100
    _ ≤ (handleGoalAchieved now (addXP now a u)).totalXp :=
        handleGoalAchieved_totalXp_le now (addXP now a u)
    _ ≤ _ := (rulesFrame_checkAchievements now (handleGoalAchieved now (addXP now a u))).totalXp_le

theorem addWater_cross (s : GameState) (amount : Nat) (t : Instant)
    (h1 : s.currentIntake < s.dailyGoal) (h2 : s.dailyGoal ≤ s.currentIntake + amount) :
    (addWater s amount t).streak = s.streak + 1 ∧
    (addWater s amount t).stats.bestStreak = max s.stats.bestStreak (s.streak + 1) ∧
    (addWater s amount t).stats.perfectDays = s.stats.perfectDays + 1 ∧
    (addWater s amount t).stats.totalDays = s.stats.totalDays + 1 ∧
    s.totalXp + amount / 25 + 100 ≤ (addWater s amount t).totalXp := by
  simp only [addWater, addXP_dailyGoal, addXP_currentIntake]
  rw [if_pos (And.intro h1 h2)]
  refine ⟨?_, ?_, ?_, ?_, ?_⟩
  · rw [checkAchievements_streak, handleGoalAchieved_streak, addXP_streak]
  · rw [checkAchievements_stats, handleGoalAchieved_bestStreak, addXP_stats, addXP_streak]
  · rw [checkAchievements_stats, handleGoalAchieved_perfectDays, addXP_stats]
  · rw [checkAchievements_stats, handleGoalAchieved_totalDays, addXP_stats]
  · exact log_goal_xp_chain t.stamp (amount / 25) _ rfl

theorem addWater_nocross (s : GameState) (amount : Nat) (t : Instant)
    (h : ¬(s.currentIntake < s.dailyGoal ∧ s.dailyGoal ≤ s.currentIntake + amount)) :
    (addWater s amount t).streak = s.streak ∧
    (addWater s amount t).stats.bestStreak = s.stats.bestStreak ∧
    (addWater s amount t).stats.perfectDays = s.stats.perfectDays ∧
    (addWater s amount t).stats.totalDays = s.stats.totalDays := by
  simp only [addWater, addXP_dailyGoal, addXP_currentIntake]
  rw [if_neg h]
  refine ⟨?_, ?_, ?_, ?_⟩
  · rw [checkAchievements_streak, addXP_streak]
  · rw [checkAchievements_stats, addXP_stats]
  · rw [checkAchievements_stats, addXP_stats]
  · rw [checkAchievements_stats, addXP_stats]

theorem addWater_level_le (s : GameState) (amount : Nat) (t : Instant) :
    s.level ≤ (addWater s amount t).level := by
  simp only [addWater]
  split
  · refine le_trans ?_
      (le_trans (handleGoalAchieved_level_le _ _) (rulesFrame_checkAchievements _ _).level_le)
    exact addXP_level_le_of_eq _ _ _ rfl
  · refine le_trans ?_ (rulesFrame_checkAchievements _ _).level_le
    exact addXP_level_le_of_eq _ _ _ rfl

theorem checkNewDay_frame (s : GameState) (today : Nat) :
    (checkNewDay s today).dailyGoal = s.dailyGoal ∧
    (checkNewDay s today).xp = s.xp ∧
    (checkNewDay s today).totalXp = s.totalXp ∧
    (checkNewDay s today).level = s.level ∧
    (checkNewDay s today).lastDrinkDate = s.lastDrinkDate ∧
    (checkNewDay s today).history = s.history ∧
    (checkNewDay s today).achievements = s.achievements ∧
    (checkNewDay s today).settings = s.settings ∧
    (checkNewDay s today).stats = s.stats ∧
    ((checkNewDay s today).streak = 0 ∨ (checkNewDay s today).streak = s.streak) := by
  simp only [checkNewDay]
  split
  · simp
  · split
    · simp
    · split
      · split <;> simp
      · simp

theorem saveSettings_frame (s : GameState) (g : Int) (sound notif : Bool) :
    (saveSettings s g sound notif).streak = s.streak ∧
    (saveSettings s g sound notif).stats = s.stats ∧
    (saveSettings s g sound notif).level = s.level ∧
    (saveSettings s g sound notif).totalXp = s.totalXp := by
  simp only [saveSettings]
  split <;> simp

theorem levelInv_init : levelInv initialState := by
  show initialState.level = computeLevel initialState.totalXp
  decide

theorem reachable_levelInv {s : GameState} (h : Reachable s) : levelInv s := by
  induction h with
  | init => exact levelInv_init
  | step h1 h2 ih =>
    cases h2 with
    | water amount t => exact levelInv_addWater _ amount t ih
    | newDay today => exact levelInv_checkNewDay _ today ih
    | settings g sound notif => exact levelInv_saveSettings _ g sound notif ih
    | achieve now => exact levelInv_checkAchievements now ih

theorem step_level_le {s s' : GameState} (hs : Step s s') : s.level ≤ s'.level := by
  cases hs with
  | water amount t => exact addWater_level_le s amount t
  | newDay today => exact le_of_eq (checkNewDay_frame s today).2.2.2.1.symm
  | settings g sound notif => exact le_of_eq (saveSettings_frame s g sound notif).2.2.1.symm
  | achieve now => exact (rulesFrame_checkAchievements now s).level_le

theorem step_bestStreak {s s' : GameState} (hs : Step s s')
    (h : s.streak ≤ s.stats.bestStreak) : s'.streak ≤ s'.stats.bestStreak := by
  cases hs with
  | water amount t =>
    by_cases hc : s.currentIntake < s.dailyGoal ∧ s.dailyGoal ≤ s.currentIntake + amount
    · obtain ⟨e1, e2, _, _, _⟩ := addWater_cross s amount t hc.1 hc.2
      rw [e1, e2]
      exact le_max_right _ _
    · obtain ⟨e1, e2, _, _⟩ := addWater_nocross s amount t hc
      rw [e1, e2]
      exact h
  | newDay today =>
    obtain ⟨_, _, _, _, _, _, _, _, hstats, hstreak⟩ := checkNewDay_frame s today
    rcases hstreak with h0 | hsame
    · rw [h0]; exact Nat.zero_le _
    · rw [hsame, hstats]; exact h
  | settings g sound notif =>
    obtain ⟨e1, e2, _, _⟩ := saveSettings_frame s g sound notif
    rw [e1, e2]
    exact h
  | achieve now =>
    rw [(rulesFrame_checkAchievements now s).streak, (rulesFrame_checkAchievements now s).stats]
    exact h

theorem reachable_bestStreak {s : GameState} (h : Reachable s) :
    s.streak ≤ s.stats.bestStreak := by
  induction h with
  | init => exact Nat.le_refl 0
  | step h1 h2 ih => exact step_bestStreak h2 ih

theorem step_days {s s' : GameState} (hs : Step s s')
    (h : s.stats.totalDays = s.stats.perfectDays) :
    s'.stats.totalDays = s'.stats.perfectDays := by
  cases hs with
  | water amount t =>
    by_cases hc : s.currentIntake < s.dailyGoal ∧ s.dailyGoal ≤ s.currentIntake + amount
    · obtain ⟨_, _, e3, e4, _⟩ := addWater_cross s amount t hc.1 hc.2
      rw [e3, e4, h]
    · obtain ⟨_, _, e3, e4⟩ := addWater_nocross s amount t hc
      rw [e3, e4, h]
  | newDay today =>
    rw [(checkNewDay_frame s today).2.2.2.2.2.2.2.2.1]
    exact h
  | settings g sound notif =>
    rw [(saveSettings_frame s g sound notif).2.1]
    exact h
  | achieve now =>
    rw [(rulesFrame_checkAchievements now s).stats]
    exact h

theorem reachable_days {s : GameState} (h : Reachable s) :
    s.stats.totalDays = s.stats.perfectDays := by
  induction h with
  | init => rfl
  | step h1 h2 ih => exact step_days h2 ih

/-- C4: after every operation, `level` equals the largest entry of the
fixed 10-entry level table (thresholds 0, 100, 250, 500, 800, 1200,
1700, 2300, 3000, 4000) whose `xpRequired` is at most `totalXp`, and no
operation ever decreases `level`. -/
theorem claimC4 :
    (∀ s : GameState, Reachable s →
      (∃ e ∈ levels, e.level = s.level ∧ e.xpRequired ≤ s.totalXp) ∧
        ∀ e ∈ levels, e.xpRequired ≤ s.totalXp → e.level ≤ s.level) ∧
    (∀ s s' : GameState, Step s s' → s.level ≤ s'.level) := by
  constructor
  · intro s hr
    have hinv := reachable_levelInv hr
    constructor
    · rw [hinv]
      exact computeLevel_mem s.totalXp
    · intro e he hxp
      rw [hinv]
      exact computeLevel_largest s.totalXp e he hxp
  · intro s s' hs
    exact step_level_le hs

/-- Witness for C4: the level-table property at the initial state and
level monotonicity across one rollover step. -/
theorem claimC4_witness :
    ((∃ e ∈ levels, e.level = initialState.level ∧ e.xpRequired ≤ initialState.totalXp) ∧
      ∀ e ∈ levels, e.xpRequired ≤ initialState.totalXp → e.level ≤ initialState.level) ∧
    initialState.level ≤ (checkNewDay initialState 5).level :=
  ⟨claimC4.1 initialState Reachable.init,
   claimC4.2 initialState (checkNewDay initialState 5) (Step.newDay initialState 5)⟩

/-- C9: `stats.bestStreak ≥ streak` holds in every state reachable from
the initial state by engine operations. -/
theorem claimC9 (s : GameState) (h : Reachable s) : s.streak ≤ s.stats.bestStreak :=
  reachable_bestStreak h

/-- Witness for C9 at the initial state. -/
theorem claimC9_witness : initialState.streak ≤ initialState.stats.bestStreak :=
  claimC9 initialState Reachable.init

/-- C10 (implicit): in every state reachable from the initial state,
`stats.totalDays` equals `stats.perfectDays` — both counters are only
ever incremented together by the goal handler, so `totalDays` counts
goal-completed days. -/
theorem claimC10 (s : GameState) (h : Reachable s) :
    s.stats.totalDays = s.stats.perfectDays :=
  reachable_days h

/-- Witness for C10 at the initial state. -/
theorem claimC10_witness : initialState.stats.totalDays = initialState.stats.perfectDays :=
  claimC10 initialState Reachable.init

theorem cond_congr {d : AchievementDef} (hd : d ∈ achievementsDef) {s u : GameState}
    (hstats : u.stats = s.stats) (hstreak : u.streak = s.streak)
    (hhist : u.history = s.history) (hlevel : u.level = s.level) :
    d.condition u = d.condition s := by
  fin_cases hd <;> simp [hstats, hstreak, hhist, hlevel]

theorem lockedOff_congr {s u : GameState} (hach : u.achievements = s.achievements)
    (hstats : u.stats = s.stats) (hstreak : u.streak = s.streak)
    (hhist : u.history = s.history) (hlevel : u.level = s.level)
    (h : lockedOff s) : lockedOff u := by
  intro d hd hlocked
  rw [cond_congr hd hstats hstreak hhist hlevel]
  apply h d hd
  unfold hasAchievement at hlocked ⊢
  rw [← hach]
  exact hlocked

theorem unlockLoop_sub (now : Nat) (ds : List AchievementDef) (s : GameState)
    (hsub : ∀ d ∈ ds, d ∈ achievementsDef) :
    ∀ d ∈ ds, hasAchievement (unlockLoop now s ds).1 d.id = true ∨
      d.condition (unlockLoop now s ds).1 = false := by
  induction ds generalizing s with
  | nil => intro d hd; cases hd
  | cons d0 ds ih =>
    have hd0 : d0 ∈ achievementsDef := hsub d0 (by simp)
    have hsub' : ∀ d ∈ ds, d ∈ achievementsDef := fun d hd => hsub d (by simp [hd])
    intro d hd
    simp only [unlockLoop]
    split
    next hhas =>
      rcases List.mem_cons.mp hd with rfl | hmem
      · exact Or.inl ((rulesFrame_unlockLoop now ds s).ach_mono d.id hhas)
      · exact ih s hsub' d hmem
    next hhas =>
      split
      next hcond =>
        rcases List.mem_cons.mp hd with rfl | hmem
        · left
          have hbase :
              hasAchievement { s with achievements := s.achievements ++ [(d.id, now)] } d.id
                = true := by
            simp [hasAchievement]
          exact (rulesFrame_unlockLoop now ds _).ach_mono d.id hbase
        · exact ih _ hsub' d hmem
      next hcond =>
        rcases List.mem_cons.mp hd with rfl | hmem
        · right
          obtain ⟨l, hl⟩ := unlockLoop_shape now ds s
          rw [hl]
          refine (cond_congr hd0 ?_ ?_ ?_ ?_).trans (Bool.eq_false_iff.mpr hcond) <;> rfl
        · exact ih s hsub' d hmem

theorem unlockLoop_lockedOff (now : Nat) (s : GameState) :
    lockedOff (unlockLoop now s achievementsDef).1 := by
  intro d hd hlocked
  rcases unlockLoop_sub now achievementsDef s (fun d hd => hd) d hd with h | h
  · rw [h] at hlocked; cases hlocked
  · exact h

theorem runGrants_lockedOff (g : Nat) (pass : GameState → GameState)
    (hpassLevel : ∀ u, u.level ≤ (pass u).level)
    (hpass : ∀ u, g ≠ 0 → 10 ≤ g - 1 + u.level → lockedOff (pass u)) :
    ∀ (ds : List AchievementDef) (u : GameState), lockedOff u → 10 ≤ g + u.level →
      lockedOff (runGrants pass u ds) := by
  intro ds
  induction ds with
  | nil => intro u hu _; simpa [runGrants] using hu
  | cons d ds ih =>
    intro u hu hsuff
    simp only [runGrants, addXPWith, checkLevelUpWith]
    split
    next hlt =>
      have hten := computeLevel_le_ten (u.totalXp + d.xp)
      have hg : g ≠ 0 := by
        intro h0
        subst h0
        simp only [Nat.zero_add] at hsuff
        omega
      apply ih
      · refine hpass _ hg ?_
        dsimp only
        omega
      · refine le_trans ?_ (Nat.add_le_add_left (hpassLevel _) g)
        dsimp only
        omega
    next hge =>
      apply ih
      · refine lockedOff_congr ?_ ?_ ?_ ?_ ?_ hu <;> rfl
      · exact hsuff

theorem go_lockedOff : ∀ (f now : Nat) (s : GameState), 10 ≤ f + s.level →
    lockedOff (checkAchievementsGo f now s).1 := by
  intro f
  induction f with
  | zero =>
    intro now s hs
    simp only [checkAchievementsGo, achievePass]
    apply runGrants_lockedOff 0 (fun u => u) (fun u => Nat.le_refl _)
      (fun u h0 => absurd rfl h0)
    · exact unlockLoop_lockedOff now s
    · obtain ⟨l, hl⟩ := unlockLoop_shape now achievementsDef s
      rw [hl]
      simpa using hs
  | succ f ih =>
    intro now s hs
    simp only [checkAchievementsGo, achievePass]
    apply runGrants_lockedOff (f + 1) _ (fun u => (rulesFrame_go f now u).level_le)
      (fun u h0 hsuff => ih now u (by simpa using hsuff))
    · exact unlockLoop_lockedOff now s
    · obtain ⟨l, hl⟩ := unlockLoop_shape now achievementsDef s
      rw [hl]
      simpa using hs

theorem unlockLoop_noop (now : Nat) : ∀ (ds : List AchievementDef) (u : GameState),
    (∀ d ∈ ds, hasAchievement u d.id = true ∨ d.condition u = false) →
    unlockLoop now u ds = (u, []) := by
  intro ds
  induction ds with
  | nil => intro u _; rfl
  | cons d ds ih =>
    intro u h
    have hd := h d (by simp)
    have hds : ∀ d' ∈ ds, hasAchievement u d'.id = true ∨ d'.condition u = false :=
      fun d' hd' => h d' (by simp [hd'])
    simp only [unlockLoop]
    rcases hd with htrue | hfalse
    · simp only [htrue, if_true]
      exact ih u hds
    · by_cases hb : hasAchievement u d.id = true
      · simp only [hb, if_true]
        exact ih u hds
      · have hb' : hasAchievement u d.id = false := Bool.eq_false_iff.mpr hb
        simp only [hb', hfalse, Bool.false_eq_true, if_false]
        exact ih u hds

theorem go_noop (f now : Nat) (u : GameState) (h : lockedOff u) :
    checkAchievementsGo f now u = (u, []) := by
  have hu : unlockLoop now u achievementsDef = (u, []) := by
    apply unlockLoop_noop
    intro d hd
    by_cases hb : hasAchievement u d.id = true
    · exact Or.inl hb
    · exact Or.inr (h d hd (Bool.eq_false_iff.mpr hb))
  cases f <;> simp [checkAchievementsGo, achievePass, hu, runGrants]

/-- C5: achievement evaluation is idempotent — immediately re-running
`checkAchievements` on the state produced by a `checkAchievements` pass
unlocks nothing, leaves the achievements map unchanged, leaves `totalXp`
unchanged, and in fact leaves the whole state unchanged. -/
theorem claimC5 (now1 now2 : Nat) (s : GameState) :
    (checkAchievements now2 (checkAchievements now1 s).1).2 = [] ∧
    (checkAchievements now2 (checkAchievements now1 s).1).1.achievements
      = (checkAchievements now1 s).1.achievements ∧
    (checkAchievements now2 (checkAchievements now1 s).1).1.totalXp
      = (checkAchievements now1 s).1.totalXp ∧
    (checkAchievements now2 (checkAchievements now1 s).1).1 = (checkAchievements now1 s).1 := by
  have h1 : lockedOff (checkAchievements now1 s).1 :=
    go_lockedOff FUEL now1 s (by show 10 ≤ 12 + s.level; omega)
  have h2 := go_noop FUEL now2 _ h1
  unfold checkAchievements at h2 ⊢
  rw [h2]
  exact ⟨rfl, rfl, rfl, rfl⟩

/-- C2 counterexample: from the initial state (which has
`currentIntake = 0` and `dailyGoal = 2000`), logging 2000 at a mid-day
hour increases `totalXp` by 305, not by 180 — the achievement unlocks
triggered in the same call (first_drop 25, getting_started 50,
liter_club 50) also grant XP. -/
theorem claimC2_counterexample :
    initialState.currentIntake = 0 ∧ initialState.dailyGoal = 2000 ∧
    initialState.totalXp = 0 ∧
    (addWater initialState 2000 ⟨0, 12, 0⟩).totalXp = 305 ∧
    (addWater initialState 2000 ⟨0, 12, 0⟩).totalXp ≠ initialState.totalXp + 180 := by
  decide

/-- C2 amended: the goal handler runs exactly when the call crosses the
goal (`previousIntake < dailyGoal ≤ previousIntake + amount`):
streak + 1, bestStreak = max(bestStreak, streak + 1), perfectDays + 1,
totalDays + 1, and a flat 100 bonus on top of `amount / 25` XP; when the
goal is not crossed none of these counters change.  `totalXp`
additionally grows by the XP of achievements unlocked in the same call:
from the initial state, logging 2000 adds 80 + 100 + 125 = 305. -/
theorem claimC2 :
    (∀ (s : GameState) (amount : Nat) (t : Instant),
        s.currentIntake < s.dailyGoal → s.dailyGoal ≤ s.currentIntake + amount →
          (addWater s amount t).streak = s.streak + 1 ∧
          (addWater s amount t).stats.bestStreak = max s.stats.bestStreak (s.streak + 1) ∧
          (addWater s amount t).stats.perfectDays = s.stats.perfectDays + 1 ∧
          (addWater s amount t).stats.totalDays = s.stats.totalDays + 1 ∧
          s.totalXp + amount / 25 + 100 ≤ (addWater s amount t).totalXp) ∧
    (∀ (s : GameState) (amount : Nat) (t : Instant),
        ¬(s.currentIntake < s.dailyGoal ∧ s.dailyGoal ≤ s.currentIntake + amount) →
          (addWater s amount t).streak = s.streak ∧
          (addWater s amount t).stats.bestStreak = s.stats.bestStreak ∧
          (addWater s amount t).stats.perfectDays = s.stats.perfectDays ∧
          (addWater s amount t).stats.totalDays = s.stats.totalDays) ∧
    (addWater initialState 2000 ⟨0, 12, 0⟩).totalXp = initialState.totalXp + 80 + 100 + 125 := by
  refine ⟨fun s amount t h1 h2 => addWater_cross s amount t h1 h2,
          fun s amount t h => addWater_nocross s amount t h, ?_⟩
  decide

/-- Witness for C2 (amended) at the concrete goal-crossing scenario. -/
theorem claimC2_witness :
    (addWater initialState 2000 ⟨0, 12, 0⟩).streak = initialState.streak + 1 ∧
    (addWater initialState 2000 ⟨0, 12, 0⟩).stats.perfectDays
      = initialState.stats.perfectDays + 1 :=
  ⟨(claimC2.1 initialState 2000 ⟨0, 12, 0⟩ (by decide) (by decide)).1,
   (claimC2.1 initialState 2000 ⟨0, 12, 0⟩ (by decide) (by decide)).2.2.1⟩

/-- C3: day rollover with a stored last-active day different from today:
if that day is exactly yesterday, the streak is zeroed exactly when
yesterday's accumulated history total is below the daily goal; on a gap
of two or more days the streak is zeroed unconditionally; in every
day-crossing case the current intake is reset to 0. -/
theorem claimC3 (s : GameState) (today d : Nat) (hlast : s.lastDrinkDate = some d)
    (hne : d ≠ today) :
    (d = today - 1 →
      (getIntakeForDate s (today - 1) < s.dailyGoal → (checkNewDay s today).streak = 0) ∧
      (s.dailyGoal ≤ getIntakeForDate s (today - 1) → (checkNewDay s today).streak = s.streak)) ∧
    (d + 2 ≤ today → (checkNewDay s today).streak = 0) ∧
    (checkNewDay s today).currentIntake = 0 := by
  simp only [checkNewDay, hlast]
  rw [if_neg hne]
  refine ⟨?_, ?_, ?_⟩
  · intro hyest
    constructor
    · intro hlt
      rw [if_pos hyest, if_pos hlt]
    · intro hge
      rw [if_pos hyest, if_neg (Nat.not_lt.mpr hge)]
  · intro hgap
    rw [if_neg (by omega : ¬d = today - 1)]
  · split
    · split <;> rfl
    · rfl

/-- Witness for C3: yesterday active, yesterday's total 1000 below the
2000 goal — streak 5 is zeroed and intake reset. -/
theorem claimC3_witness :
    (checkNewDay { initialState with
                     lastDrinkDate := some 4, streak := 5
                     currentIntake := 700, history := [⟨1000, 4, 10⟩] } 5).streak = 0 ∧
    (checkNewDay { initialState with
                     lastDrinkDate := some 4, streak := 5
                     currentIntake := 700, history := [⟨1000, 4, 10⟩] } 5).currentIntake = 0 :=
  ⟨((claimC3 _ 5 4 rfl (by decide)).1 (by decide)).1 (by decide),
   (claimC3 _ 5 4 rfl (by decide)).2.2⟩

/-- C6: day rollover changes at most `streak` and `currentIntake`; every
other field — `dailyGoal`, `xp`, `totalXp`, `level`, `lastDrinkDate`,
`history`, `achievements`, `settings`, and the whole `stats` record
(hence `bestStreak`) — is left unchanged. -/
theorem claimC6 (s : GameState) (today : Nat) :
    (checkNewDay s today).dailyGoal = s.dailyGoal ∧
    (checkNewDay s today).xp = s.xp ∧
    (checkNewDay s today).totalXp = s.totalXp ∧
    (checkNewDay s today).level = s.level ∧
    (checkNewDay s today).lastDrinkDate = s.lastDrinkDate ∧
    (checkNewDay s today).history = s.history ∧
    (checkNewDay s today).achievements = s.achievements ∧
    (checkNewDay s today).settings = s.settings ∧
    (checkNewDay s today).stats = s.stats := by
  obtain ⟨h1, h2, h3, h4, h5, h6, h7, h8, h9, _⟩ := checkNewDay_frame s today
  exact ⟨h1, h2, h3, h4, h5, h6, h7, h8, h9⟩

/-- C7: the remote-store operations are total functions of the token and
the transport outcome: `loadFromCloud` yields `none` without a token, on
transport failure, on a 404, on any non-2xx status and on an unparsable
2xx body; `saveToCloud` and `deleteFromCloud` yield `false` without a
token, on transport failure and on any non-2xx status. -/
theorem claimC7 :
    (∀ r, loadFromCloud none r = none) ∧
    (∀ tok, loadFromCloud (some tok) .failure = none) ∧
    (∀ tok body, loadFromCloud (some tok) (.response 404 body) = none) ∧
    (∀ tok st body, statusOk st = false → st ≠ 404 →
      loadFromCloud (some tok) (.response st body) = none) ∧
    (∀ tok st, loadFromCloud (some tok) (.response st none) = none) ∧
    (∀ r, saveToCloud none r = false) ∧
    (∀ tok, saveToCloud (some tok) .failure = false) ∧
    (∀ tok st body, statusOk st = false → saveToCloud (some tok) (.response st body) = false) ∧
    (∀ r, deleteFromCloud none r = false) ∧
    (∀ tok, deleteFromCloud (some tok) .failure = false) ∧
    (∀ tok st body, statusOk st = false →
      deleteFromCloud (some tok) (.response st body) = false) := by
  refine ⟨fun r => rfl, fun tok => rfl, fun tok body => rfl, ?_, ?_,
          fun r => rfl, fun tok => rfl, ?_, fun r => rfl, fun tok => rfl, ?_⟩
  · intro tok st body hok h404
    simp [loadFromCloud, hok, h404]
  · intro tok st
    cases h : (st == 404) <;> cases hs : statusOk st <;> simp [loadFromCloud, h, hs]
  · intro tok st body hok
    simp [saveToCloud, hok]
  · intro tok st body hok
    simp [deleteFromCloud, hok]

/-- Witness for C7 at concrete failing statuses. -/
theorem claimC7_witness :
    loadFromCloud (some "tok") (.response 500 (some initialState)) = none ∧
    saveToCloud (some "tok") (.response 500 none) = false ∧
    deleteFromCloud (some "tok") (.response 503 none) = false :=
  ⟨claimC7.2.2.2.1 "tok" 500 (some initialState) (by decide) (by decide),
   claimC7.2.2.2.2.2.2.2.1 "tok" 500 none (by decide),
   claimC7.2.2.2.2.2.2.2.2.2.2 "tok" 503 none (by decide)⟩

/-- C8 counterexample: an input above the range is not clamped to 5000 —
`saveSettings` with input 6000 on the initial state keeps the previous
goal 2000. -/
theorem claimC8_counterexample :
    (saveSettings initialState 6000 true false).dailyGoal = 2000 ∧
    (saveSettings initialState 6000 true false).dailyGoal ≠ 5000 := by
  decide

/-- C8 amended: an in-range input (500–5000) is stored as the new daily
goal; an out-of-range input is rejected and the previous `dailyGoal` is
kept (the value is not clamped). -/
theorem claimC8 (s : GameState) (g : Int) (sound notif : Bool) :
    (500 ≤ g → g ≤ 5000 → (saveSettings s g sound notif).dailyGoal = g.toNat) ∧
    (g < 500 ∨ 5000 < g → (saveSettings s g sound notif).dailyGoal = s.dailyGoal) := by
  constructor
  · intro h1 h2
    simp only [saveSettings]
    rw [if_pos ⟨h1, h2⟩]
  · intro h
    simp only [saveSettings]
    rw [if_neg (by rintro ⟨hc1, hc2⟩; rcases h with h | h <;> omega)]

/-- Witness for C8: 3000 is stored, 6000 is rejected. -/
theorem claimC8_witness :
    (saveSettings initialState 3000 true false).dailyGoal = 3000 ∧
    (saveSettings initialState 6000 true true).dailyGoal = initialState.dailyGoal :=
  ⟨(claimC8 initialState 3000 true false).1 (by decide) (by decide),
   (claimC8 initialState 6000 true true).2 (Or.inr (by decide))⟩

/-- C1 counterexample: with a dominating remote copy, the resumed-session
path adopts it and saves it locally but performs no remote write — the
winning state is not written to both stores on that path. -/
theorem claimC1_counterexample :
    ({ initialState with totalXp := 500 } : GameState).totalXp > initialState.totalXp ∧
    (checkExistingSession initialState (some { initialState with totalXp := 500 })).state
      = { initialState with totalXp := 500 } ∧
    (checkExistingSession initialState (some { initialState with totalXp := 500 })).remoteWrite
      = none := by
  decide

/-- C1 amended: both merge paths follow the progress-dominance rule (the
remote copy replaces local iff `remote.totalXp > local.totalXp` or
`remote.stats.totalWater > local.stats.totalWater`).  On the sign-in
path the winning state is written to both the local and the remote
store.  On the resumed-session path there is never a remote write: a
winning remote copy is written to the local store only, and when local
wins (or no remote copy exists) nothing is written at all. -/
theorem claimC1 :
    (∀ loc c : GameState,
      (c.totalXp > loc.totalXp ∨ c.stats.totalWater > loc.stats.totalWater →
        checkExistingSession loc (some c) = ⟨c, some c, none⟩) ∧
      (¬(c.totalXp > loc.totalXp ∨ c.stats.totalWater > loc.stats.totalWater) →
        checkExistingSession loc (some c) = ⟨loc, none, none⟩)) ∧
    (∀ loc : GameState, checkExistingSession loc none = ⟨loc, none, none⟩) ∧
    (∀ loc c : GameState,
      (c.totalXp > loc.totalXp ∨ c.stats.totalWater > loc.stats.totalWater →
        (handleSignIn loc (some c)).state = c) ∧
      (¬(c.totalXp > loc.totalXp ∨ c.stats.totalWater > loc.stats.totalWater) →
        (handleSignIn loc (some c)).state = loc)) ∧
    (∀ (loc : GameState) (cloud : Option GameState),
      (handleSignIn loc cloud).localWrite = some (handleSignIn loc cloud).state ∧
      (handleSignIn loc cloud).remoteWrite = some (handleSignIn loc cloud).state) := by
  have hdom : ∀ a b : GameState, cloudDominates a b = true ↔
      (a.totalXp > b.totalXp ∨ a.stats.totalWater > b.stats.totalWater) := by
    intro a b
    simp [cloudDominates]
  refine ⟨?_, fun loc => rfl, ?_, fun loc cloud => ⟨rfl, rfl⟩⟩
  · intro loc c
    constructor
    · intro h
      simp only [checkExistingSession]
      rw [if_pos ((hdom c loc).mpr h)]
    · intro h
      simp only [checkExistingSession]
      rw [if_neg (fun hc => h ((hdom c loc).mp hc))]
  · intro loc c
    constructor
    · intro h
      simp only [handleSignIn]
      rw [if_pos ((hdom c loc).mpr h)]
    · intro h
      simp only [handleSignIn]
      rw [if_neg (fun hc => h ((hdom c loc).mp hc))]

/-- Witness for C1 (amended) at a dominating remote copy. -/
theorem claimC1_witness :
    checkExistingSession initialState (some { initialState with totalXp := 500 })
      = ⟨{ initialState with totalXp := 500 }, some { initialState with totalXp := 500 }, none⟩ ∧
    (handleSignIn initialState (some { initialState with totalXp := 500 })).state
      = { initialState with totalXp := 500 } :=
  ⟨(claimC1.1 initialState { initialState with totalXp := 500 }).1 (Or.inl (by decide)),
   (claimC1.2.2.1 initialState { initialState with totalXp := 500 }).1 (Or.inl (by decide))⟩
